import Mathlib

/-!
Shallow embedding of `prelockd-rs` (src/main.rs), a daemon that scans
configured directories, matches files against configured patterns, orders
them, and mlocks them into memory under a budget.

Modelling conventions:
* Rust `usize`/`u64` sizes are `Nat`.  File sizes come from `fs::metadata`
  and are bounded by the filesystem; the filesystem is modelled as static
  for the duration of one run, so the length of a mapping of a whole file
  (`mmap.len()`, main.rs:216) equals the metadata length read earlier for
  the same path (main.rs:191).
* Strings are Lean `String`s; the TOML value tree is the inductive `Toml`
  below; tables are association lists in declaration order.
* `panic` outcomes (Rust `expect`/`panic!`, and the panicking `Index`
  impl of `toml::Table` used by `config["key"]`) are distinguished from
  `return Err(..)` outcomes.
* The regex engine is external; `re.is_match` for the per-pattern regex
  built at main.rs:186 is an oracle `rmatch : String → String → Bool`
  applied to the raw pattern text, and the success of
  `RegexBuilder::build` is an oracle `rbuild : String → Bool`.
  The one regex analysed in full is the size-spec regex of
  `size_to_bytes`, whose shape is fixed in the source.
-/

namespace Prelockd

/-- `const KIB: usize = 1024;` (main.rs:11) -/
def KIB : Nat := 1024

/-- `const MIB: usize = 1048576;` (main.rs:12) -/
def MIB : Nat := 1048576

/-- `const GIB: usize = 1073741824;` (main.rs:13) -/
def GIB : Nat := 1073741824

/-- Modulus of `usize` on the 64-bit targets the daemon runs on. -/
def USIZE : Nat := 2 ^ 64

/-- `enum SortingMethod { FL, SL, LS }` (main.rs:10) -/
inductive SortingMethod where
  | FL
  | SL
  | LS
deriving DecidableEq, Repr

/-- `struct Lock` (main.rs:27-33). -/
structure Lock where
  current_size : Nat
  max_file_size : Nat
  max_total_size : Nat
  memory_size : Nat
  sorting_method : SortingMethod
deriving DecidableEq, Repr

/-- `struct FileInfo { size: u64 }` (main.rs:35-37). -/
structure FileInfo where
  size : Nat
deriving DecidableEq, Repr

/-! ## Size Resolver (`size_to_bytes`, main.rs:43-72)

The regex is `(\d*)([m,k,g,%])?` (main.rs:44).  Every part of it is
optional, so it matches (possibly emptily) at position 0 of every
haystack; `Regex::captures` therefore never returns `None`.  With
leftmost-greedy semantics the match at position 0 is: group 1 takes the
maximal digit prefix, group 2 takes one immediately following character
of the class `[m,k,g,%]` (which contains a literal comma) if present.
Capture group **0** is the overall match: digits plus the unit character.

The source parses group **0** as the number (main.rs:46-47) and matches
group **1** (the digit group) against the unit strings (main.rs:49).
-/

/-- The characters of the class `[m,k,g,%]` in the size regex (the comma
is a literal member of the class). -/
def stbUnitChars : List Char := ['m', ',', 'k', 'g', '%']

/-- Maximal digit prefix of a character list. -/
def digitPrefix : List Char → List Char
  | [] => []
  | c :: cs => if c.isDigit then c :: digitPrefix cs else []

/-- The unit character consumed by the greedy optional group, if the
first character after the digits is in the class. -/
def unitAt : List Char → List Char
  | [] => []
  | c :: _ => if c ∈ stbUnitChars then [c] else []

/-- Models `STB_RE.captures(size)` for the regex `(\d*)([m,k,g,%])?`
(main.rs:44-45): returns (group 0, group 1).  The regex matches at
position 0 of every haystack (all of its parts are optional), so the
result is always `some`; group 1 always participates (it can match the
empty string), which is why the `expect` at main.rs:49 never fires. -/
def stb_captures (s : List Char) : Option (List Char × List Char) :=
  let d := digitPrefix s
  some (d ++ unitAt (s.drop d.length), d)

/-- Numeric value of a digit list (most significant first). -/
def digitsVal (l : List Char) : Nat :=
  l.foldl (fun n c => 10 * n + (c.toNat - 48)) 0

/-- Models `str::parse::<usize>`: succeeds on a nonempty all-digit
string whose value fits in `usize`. -/
def parseUsize (l : List Char) : Option Nat :=
  if l ≠ [] ∧ l.all Char.isDigit ∧ digitsVal l < USIZE then some (digitsVal l)
  else none

/-- `fn size_to_bytes(size: &str, lock: &Lock) -> Option<usize>`
(main.rs:43-72).  `value` is capture group 0 parsed with `unwrap_or(0)`
(main.rs:46-47); the unit `match` is on capture group 1 (main.rs:49).
The multiplications are `usize` arithmetic (release-mode wrapping);
they are reduced mod `USIZE`. -/
def size_to_bytes (size : String) (lock : Lock) : Option Nat :=
  match stb_captures size.toList with
  | some (g0, g1) =>
    let value := (parseUsize g0).getD 0
    if value ≠ 0 then
      if g1 = "k".toList then some ((value * KIB) % USIZE)
      else if g1 = "m".toList then some ((value * MIB) % USIZE)
      else if g1 = "g".toList then some ((value * GIB) % USIZE)
      else if g1 = "%".toList then some (lock.memory_size / value)
      else some value
    else some 0
  | none => none

end Prelockd

namespace Prelockd

/-- A `Lock` with the given total memory, as first built at
main.rs:98-105 (`max_total_size` is immediately overwritten with
`memory_size/10` at main.rs:105). -/
def initLock (total_memory : Nat) : Lock :=
  { current_size := 0
    max_file_size := 20 * MIB
    max_total_size := total_memory / 10
    memory_size := total_memory
    sorting_method := .SL }

/-! ## Configuration model

`toml::Table` is a map from strings to values; the daemon indexes it
with `config["key"]`, whose `Index` impl panics when the key is absent.
Tables are modelled as association lists in declaration order. -/

/-- A TOML value as the daemon observes it: a string, an array, a table,
or anything else (`as_str`/`as_array`/`as_table` return `None` on it). -/
inductive Toml where
  | vStr (s : String)
  | vArr (a : List Toml)
  | vTable (t : List (String × Toml))
  | vOther

/-- `Value::as_str`. -/
def Toml.as_str : Toml → Option String
  | .vStr s => some s
  | _ => none

/-- `Value::as_array`. -/
def Toml.as_array : Toml → Option (List Toml)
  | .vArr a => some a
  | _ => none

/-- `Value::as_table`. -/
def Toml.as_table : Toml → Option (List (String × Toml))
  | .vTable t => some t
  | _ => none

/-- Key lookup in a table (the `get` underlying `Index`). -/
def tget : List (String × Toml) → String → Option Toml
  | [], _ => none
  | (k, v) :: t, key => if k = key then some v else tget t key

/-- The `panic!` exits daemon_setup can take: the panicking `Index` impl
on a missing table key, the `expect`s at main.rs:119, 121, 168, 174,
177, the regex-build `expect` at main.rs:186, and the mlock `expect` at
main.rs:215 (whose message is the source's misspelled
"Failed to lcoked memory"). -/
inductive Panic where
  | keyNotFound (k : String)
  | locationsNotArray
  | locationNotString
  | patternNotString
  | listIdNotString
  | regexBuildFailed
  | mlockFailed
deriving DecidableEq, Repr

/-- The `return Err(..)` exits of daemon_setup after the configuration
has been parsed (main.rs:113, 116, 135, 158, 182). -/
inductive Err where
  | maxTotalZero
  | maxFileZero
  | couldntRead (loc : String)
  | lockTableInvalid
  | loadTableInvalid
deriving DecidableEq, Repr

/-- A fatal exit: an explicit `Err` return or a panic. -/
inductive Fatal where
  | panic (p : Panic)
  | err (e : Err)
deriving DecidableEq, Repr

/-! ## Filesystem model

The filesystem is an external collaborator, modelled as oracles fixed
for the run (static filesystem). -/

/-- The part of `fs::Metadata` the daemon reads. -/
structure MetaData where
  is_dir : Bool
  is_file : Bool
  len : Nat
deriving DecidableEq, Repr

/-- A `DirEntry` yielded by `read_dir`: `path().to_str()` (None for
non-UTF-8 paths) and the result of `DirEntry::metadata()` (None =
`Err`).  The daemon calls `metadata()` twice on the same entry
(main.rs:127 and main.rs:190); under the static-filesystem model both
calls return this same value. -/
structure DirEntryE where
  path_str : Option String
  meta : Option MetaData
deriving DecidableEq, Repr

/-- Filesystem oracles: `fs::metadata` on a location (None = `Err`),
`fs::read_dir` (None = `Err`; each yielded item is itself a `Result`),
and the success of `File::open`, `Mmap::map` and `Mmap::lock` per
path. -/
structure Fs where
  metadata : String → Option MetaData
  read_dir : String → Option (List (Option DirEntryE))
  open_ok : String → Bool
  map_ok : String → Bool
  lock_ok : String → Bool

/-! ## Candidate Scanner (main.rs:120-139) -/

/-- The inner entry loop of the scanner (main.rs:125-133): `Err` items
are skipped, entries whose metadata fails are skipped, and an entry is
kept iff it is a regular file of size at most `max_file_size`. -/
def scanEntries (max_file_size : Nat) (entries : List (Option DirEntryE)) : List DirEntryE :=
  entries.filterMap fun it =>
    match it with
    | some f =>
      match f.meta with
      | some fd => if fd.is_file ∧ fd.len ≤ max_file_size then some f else none
      | none => none
    | none => none

/-- The location loop of the scanner (main.rs:120-139).  A location that
is not a string panics (main.rs:121); a location whose metadata fails or
which is not a directory is silently skipped; a directory that cannot be
listed aborts with `Couldn't read .. ` (main.rs:135). -/
def scanLocations (fs : Fs) (max_file_size : Nat) :
    List Toml → Except Fatal (List DirEntryE)
  | [] => .ok []
  | loc :: rest =>
    match loc.as_str with
    | none => .error (.panic .locationNotString)
    | some l =>
      match fs.metadata l with
      | some md =>
        if md.is_dir then
          match fs.read_dir l with
          | some entries =>
            match scanLocations fs max_file_size rest with
            | .ok files => .ok (scanEntries max_file_size entries ++ files)
            | .error e => .error e
          | none => .error (.err (.couldntRead l))
        else scanLocations fs max_file_size rest
      | none => scanLocations fs max_file_size rest

/-! ## Policy Builder / lock-table consumption (main.rs:107-159) -/

/-- Models `str::to_lowercase` character by character (the configured
method names are ASCII).  (Core's `String.toLower` recurses on byte
positions and does not reduce definitionally, so the equivalent
list-based form is used.) -/
def toLowerStr (s : String) : String := ⟨s.data.map Char.toLower⟩

/-- `sorting_method` parsing (main.rs:142-155): lowercased, "fl" and
"ls" recognised, anything else falls back to SmallestToLargest. -/
def parseSortingMethod (s : String) : SortingMethod :=
  if toLowerStr s = "fl" then .FL
  else if toLowerStr s = "ls" then .LS
  else .SL

/-- The lock-table block of daemon_setup (main.rs:108-159): resolves the
two size limits through `size_to_bytes` with `unwrap_or` of the presets,
checks them for zero, scans the configured locations, and reads the
sorting method.  Every `config[key]` on a missing key panics. -/
def lockStage (fs : Fs) (config : List (String × Toml)) (lock0 : Lock) :
    Except Fatal (Lock × List DirEntryE) :=
  match tget config "lock" with
  | none => .error (.panic (.keyNotFound "lock"))
  | some v =>
    match v.as_table with
    | none => .error (.err .lockTableInvalid)
    | some lock_config =>
      match tget lock_config "max_file_size" with
      | none => .error (.panic (.keyNotFound "max_file_size"))
      | some mfsv =>
        let lock1 : Lock := { lock0 with
          max_file_size := (size_to_bytes (mfsv.as_str.getD "0") lock0).getD lock0.max_file_size }
        match tget lock_config "max_total_size" with
        | none => .error (.panic (.keyNotFound "max_total_size"))
        | some mtsv =>
          let lock2 : Lock := { lock1 with
            max_total_size :=
              (size_to_bytes (mtsv.as_str.getD "0") lock1).getD lock1.max_total_size }
          if lock2.max_total_size = 0 then .error (.err .maxTotalZero)
          else if lock2.max_file_size = 0 then .error (.err .maxFileZero)
          else
            match tget lock_config "locations" with
            | none => .error (.panic (.keyNotFound "locations"))
            | some locv =>
              match locv.as_array with
              | none => .error (.panic .locationsNotArray)
              | some locations =>
                match scanLocations fs lock2.max_file_size locations with
                | .error e => .error e
                | .ok files =>
                  match tget lock_config "sorting_method" with
                  | none => .error (.panic (.keyNotFound "sorting_method"))
                  | some smv =>
                    let lock3 : Lock :=
                      match smv.as_str with
                      | some s => { lock2 with sorting_method := parseSortingMethod s }
                      | none => lock2
                    .ok (lock3, files)

/-! ## Pattern Matcher / load-table consumption (main.rs:161-199) -/

/-- Collect an array of patterns; a non-string pattern panics
(main.rs:168, 177). -/
def collectPatterns : List Toml → Except Fatal (List String)
  | [] => .ok []
  | p :: rest =>
    match p.as_str with
    | none => .error (.panic .patternNotString)
    | some s =>
      match collectPatterns rest with
      | .ok r => .ok (s :: r)
      | .error e => .error e

/-- The `lists` loop (main.rs:172-180): each list name must be a string
(panic otherwise), `load[list_id]` panics if the group key is missing,
and a group that is not an array is silently skipped. -/
def collectLists (load : List (String × Toml)) : List Toml → Except Fatal (List String)
  | [] => .ok []
  | l :: rest =>
    match l.as_str with
    | none => .error (.panic .listIdNotString)
    | some list_id =>
      match tget load list_id with
      | none => .error (.panic (.keyNotFound list_id))
      | some v =>
        match v.as_array with
        | some arr =>
          match collectPatterns arr with
          | .error e => .error e
          | .ok a =>
            match collectLists load rest with
            | .error e => .error e
            | .ok r => .ok (a ++ r)
        | none => collectLists load rest

/-- The inner candidate loop for one pattern (main.rs:187-196): every
candidate whose path converts to UTF-8 and matches the pattern's regex
is appended with its metadata length; a metadata failure at this point
is logged and skipped. -/
def matchOne (rmatch : String → String → Bool) (p : String) (files : List DirEntryE) :
    List (String × FileInfo) :=
  files.filterMap fun f =>
    match f.path_str with
    | some path =>
      if rmatch p path then
        match f.meta with
        | some fd => some (path, ⟨fd.len⟩)
        | none => none
      else none
    | none => none

/-- The outer pattern loop (main.rs:185-197): for each pattern, build
its regex (`expect` panics on failure) and scan the whole candidate
set. -/
def matchPatterns (rmatch : String → String → Bool) (rbuild : String → Bool)
    (files : List DirEntryE) : List String → Except Fatal (List (String × FileInfo))
  | [] => .ok []
  | p :: ps =>
    if rbuild p then
      match matchPatterns rmatch rbuild files ps with
      | .ok r => .ok (matchOne rmatch p files ++ r)
      | .error e => .error e
    else .error (.panic .regexBuildFailed)

/-- The load-table block of daemon_setup (main.rs:161-199).  A missing
`load` key panics; a `load` value that is not a table silently yields no
targets; a missing `files` or `lists` key panics; `files` not an array
is silently empty; `lists` not an array is the `Err` at main.rs:182. -/
def loadStage (rmatch : String → String → Bool) (rbuild : String → Bool)
    (config : List (String × Toml)) (files : List DirEntryE) :
    Except Fatal (List (String × FileInfo)) :=
  match tget config "load" with
  | none => .error (.panic (.keyNotFound "load"))
  | some v =>
    match v.as_table with
    | none => .ok []
    | some load =>
      match tget load "files" with
      | none => .error (.panic (.keyNotFound "files"))
      | some fv =>
        match (match fv.as_array with
               | some arr => collectPatterns arr
               | none => .ok []) with
        | .error e => .error e
        | .ok pats1 =>
          match tget load "lists" with
          | none => .error (.panic (.keyNotFound "lists"))
          | some lv =>
            match lv.as_array with
            | none => .error (.err .loadTableInvalid)
            | some lists =>
              match collectLists load lists with
              | .error e => .error e
              | .ok pats2 => matchPatterns rmatch rbuild files (pats1 ++ pats2)

/-! ## Selection Sorter (main.rs:201-205)

`Vec::sort_by` is a stable sort; a stable sort's output is uniquely
determined by the comparator and the input order, so it is modelled by
insertion sort (which Mathlib proves stable). -/

/-- Admissible order for SmallestToLargest:
`file_a.1.size.cmp(&file_b.1.size)` (main.rs:202). -/
def leSL (a b : String × FileInfo) : Prop := a.2.size ≤ b.2.size

/-- Admissible order for LargestToSmallest:
`file_b.1.size.cmp(&file_a.1.size)` (main.rs:203). -/
def leLS (a b : String × FileInfo) : Prop := b.2.size ≤ a.2.size

instance : DecidableRel leSL := fun _ _ => Nat.decLe _ _

instance : DecidableRel leLS := fun _ _ => Nat.decLe _ _

instance : IsTotal (String × FileInfo) leSL := ⟨fun a b => Nat.le_total a.2.size b.2.size⟩

instance : IsTotal (String × FileInfo) leLS := ⟨fun a b => Nat.le_total b.2.size a.2.size⟩

instance : IsTrans (String × FileInfo) leSL := ⟨fun _ _ _ h h' => Nat.le_trans h h'⟩

instance : IsTrans (String × FileInfo) leLS := ⟨fun _ _ _ h h' => Nat.le_trans h' h⟩

/-- The sorting dispatch (main.rs:201-205); the wildcard arm (FL) does
not reorder. -/
def sortStage (sm : SortingMethod) (to_load : List (String × FileInfo)) :
    List (String × FileInfo) :=
  match sm with
  | .SL => List.insertionSort leSL to_load
  | .LS => List.insertionSort leLS to_load
  | _ => to_load

/-! ## Budget Allocator / Pinner (main.rs:206-223) -/

/-- The resident registry `LOADED`: each entry is a path with its
mapping, the mapping being modelled by its observable `len()`. -/
abbrev Loaded := List (String × Nat)

/-- Total size of the registry's mappings. -/
def sumSizes (l : Loaded) : Nat := (l.map (·.2)).sum

/-- The pinning loop (main.rs:206-223).  A target that would exceed the
budget is skipped (`continue`); an open failure is silently skipped; a
map failure is logged and skipped; a pin (`mmap.lock()`) failure panics
via `expect` (main.rs:215), carrying the registry state at that moment.
On success the mapping's length (equal to the target's metadata size
under the static-filesystem model) is added to `current_size` and the
entry is appended to `LOADED`. -/
def pinPass (fs : Fs) (max_total_size : Nat) :
    List (String × FileInfo) → Nat → Loaded → Except (Panic × Nat × Loaded) (Nat × Loaded)
  | [], cs, loaded => .ok (cs, loaded)
  | t :: ts, cs, loaded =>
    if cs + t.2.size > max_total_size then pinPass fs max_total_size ts cs loaded
    else if fs.open_ok t.1 then
      if fs.map_ok t.1 then
        if fs.lock_ok t.1 then
          pinPass fs max_total_size ts (cs + t.2.size) (loaded ++ [(t.1, t.2.size)])
        else .error (.mlockFailed, cs, loaded)
      else pinPass fs max_total_size ts cs loaded
    else pinPass fs max_total_size ts cs loaded

/-- The sequence of `(current_size, LOADED)` states the pinning loop
passes through: the state before each iteration and the final state (at
a pin panic the trace ends with the state at the panic). -/
def pinTrace (fs : Fs) (max_total_size : Nat) :
    List (String × FileInfo) → Nat → Loaded → List (Nat × Loaded)
  | [], cs, loaded => [(cs, loaded)]
  | t :: ts, cs, loaded =>
    (cs, loaded) ::
      (if cs + t.2.size > max_total_size then pinTrace fs max_total_size ts cs loaded
       else if fs.open_ok t.1 then
         if fs.map_ok t.1 then
           if fs.lock_ok t.1 then
             pinTrace fs max_total_size ts (cs + t.2.size) (loaded ++ [(t.1, t.2.size)])
           else [(cs, loaded)]
         else pinTrace fs max_total_size ts cs loaded
       else pinTrace fs max_total_size ts cs loaded)

/-! ## daemon_setup (main.rs:87-229) -/

/-- Observable outcome of `daemon_setup`, with the `current_size` and
`LOADED` registry state at the moment of return or panic.  (The
reading/parsing of the configuration file, main.rs:88-95, is an
external collaborator; the embedding starts from the parsed table.) -/
inductive DSOut where
  | ok (current_size : Nat) (loaded : Loaded)
  | fatal (e : Err) (current_size : Nat) (loaded : Loaded)
  | panicked (p : Panic) (current_size : Nat) (loaded : Loaded)
deriving DecidableEq, Repr

/-- `fn daemon_setup` (main.rs:87-229) from the parsed configuration:
lock-table consumption and candidate scan, load-table consumption and
pattern matching, sorting, then the pinning pass.  `current_size` starts
at 0 and `LOADED` starts empty; both are only modified by the pinning
pass. -/
def daemon_setup (fs : Fs) (rmatch : String → String → Bool) (rbuild : String → Bool)
    (total_memory : Nat) (config : List (String × Toml)) : DSOut :=
  match lockStage fs config (initLock total_memory) with
  | .error (.panic p) => .panicked p 0 []
  | .error (.err e) => .fatal e 0 []
  | .ok (lock, files) =>
    match loadStage rmatch rbuild config files with
    | .error (.panic p) => .panicked p 0 []
    | .error (.err e) => .fatal e 0 []
    | .ok to_load =>
      match pinPass fs lock.max_total_size (sortStage lock.sorting_method to_load) 0 [] with
      | .error (p, cs, loaded) => .panicked p cs loaded
      | .ok (cs, loaded) => .ok cs loaded

/-! ## Concrete test fixtures -/

/-- A filesystem with no locations and all per-file operations
succeeding. -/
def fsBase : Fs := ⟨fun _ => none, fun _ => none, fun _ => true, fun _ => true, fun _ => true⟩

/-- A filesystem where every `Mmap::map` fails. -/
def fsMapFail : Fs := ⟨fun _ => none, fun _ => none, fun _ => true, fun _ => false, fun _ => true⟩

/-- A filesystem where every `mmap.lock()` (page pin) fails. -/
def fsLockFail : Fs := ⟨fun _ => none, fun _ => none, fun _ => true, fun _ => true, fun _ => false⟩

/-- A regex-match oracle that matches nothing. -/
def rmNever : String → String → Bool := fun _ _ => false

/-- A regex-build oracle where every pattern compiles. -/
def rbAll : String → Bool := fun _ => true

/-- lock table with only `max_total_size`. -/
def cfgNoMfs : List (String × Toml) := [("lock", .vTable [("max_total_size", .vStr "5")])]

/-- lock table with only `max_file_size`. -/
def cfgNoMts : List (String × Toml) := [("lock", .vTable [("max_file_size", .vStr "5")])]

/-- lock table with both sizes but no `locations`. -/
def cfgNoLocations : List (String × Toml) :=
  [("lock", .vTable [("max_file_size", .vStr "5"), ("max_total_size", .vStr "5")])]

/-- lock table with sizes and empty `locations` but no `sorting_method`. -/
def cfgNoSortingMethod : List (String × Toml) :=
  [("lock", .vTable [("max_file_size", .vStr "5"), ("max_total_size", .vStr "5"),
    ("locations", .vArr [])])]

/-- A complete, valid lock table with no locations. -/
def lockTableFull : Toml :=
  .vTable [("max_file_size", .vStr "5"), ("max_total_size", .vStr "5"),
    ("locations", .vArr []), ("sorting_method", .vStr "fl")]

/-- Valid lock table; empty load table (no `files` key). -/
def cfgNoFiles : List (String × Toml) := [("lock", lockTableFull), ("load", .vTable [])]

/-- Valid lock table; load table with `files` but no `lists`. -/
def cfgNoLists : List (String × Toml) :=
  [("lock", lockTableFull), ("load", .vTable [("files", .vArr [])])]

/-- Valid lock table; `lists` references the group `grp` which has no
entry in the load table. -/
def cfgNoGroup : List (String × Toml) :=
  [("lock", lockTableFull),
   ("load", .vTable [("files", .vArr []), ("lists", .vArr [.vStr "grp"])])]

/-- lock table whose `max_total_size` resolves to zero. -/
def cfgMtsZero : List (String × Toml) :=
  [("lock", .vTable [("max_file_size", .vStr "5"), ("max_total_size", .vStr "0")])]

/-- A directory entry for the file `d/x` of size 10. -/
def entX : DirEntryE := ⟨some "d/x", some ⟨false, true, 10⟩⟩

/-- A filesystem with one directory `d` holding the single file `d/x`;
all per-file operations succeed. -/
def fsC8 : Fs :=
  ⟨fun l => if l = "d" then some ⟨true, false, 0⟩ else none,
   fun l => if l = "d" then some [some entX] else none,
   fun _ => true, fun _ => true, fun _ => true⟩

/-- A regex-match oracle under which every pattern matches exactly the
path `d/x`. -/
def rmC8 : String → String → Bool := fun _ p => p = "d/x"

/-- A configuration with two direct patterns (`a` and `b`), one scanned
location `d`, limits of 100 bytes, and FirstToLast ordering. -/
def cfgC8 : List (String × Toml) :=
  [("lock", .vTable [("max_file_size", .vStr "100"), ("max_total_size", .vStr "100"),
     ("locations", .vArr [.vStr "d"]), ("sorting_method", .vStr "fl")]),
   ("load", .vTable [("files", .vArr [.vStr "a", .vStr "b"]), ("lists", .vArr [])])]

/-- The `Lock` value `lockStage` produces for `cfgC8` with 1000 bytes of
total memory. -/
def lockC8 : Lock := ⟨0, 100, 100, 1000, .FL⟩

/-- The load targets `loadStage` produces for `cfgC8`: the single file
matched once per pattern. -/
def targetsC8 : List (String × FileInfo) := [("d/x", ⟨10⟩), ("d/x", ⟨10⟩)]

/-! ## Helper lemmas -/

/-- Filtering commutes with `orderedInsert` when the filter predicate
only keeps elements that are mutually related (e.g. equal sort keys):
this is the heart of stability. -/
theorem filter_orderedInsert {α : Type} (r : α → α → Prop) [DecidableRel r] (p : α → Bool)
    (a : α) (ha : p a = true → ∀ b, p b = true → r a b) :
    ∀ l : List α, (l.orderedInsert r a).filter p =
      if p a then a :: l.filter p else l.filter p := by
  intro l
  induction l with
  | nil =>
    by_cases hpa : p a = true <;> simp [List.orderedInsert, List.filter_cons, hpa]
  | cons b l ih =>
    by_cases hr : r a b
    · by_cases hpa : p a = true <;>
        simp [List.orderedInsert, if_pos hr, List.filter_cons, hpa]
    · simp only [List.orderedInsert, if_neg hr, List.filter_cons]
      by_cases hpa : p a = true
      · have hpb : ¬ p b = true := fun hpb => hr (ha hpa b hpb)
        simp [hpa, hpb, ih]
      · by_cases hpb : p b = true
        · simp [hpa, hpb, ih]
        · simp [hpa, hpb, ih]

/-- Insertion sort is stable: filtering to any class of mutually related
elements (e.g. a fixed sort key) is unchanged by sorting. -/
theorem filter_insertionSort {α : Type} (r : α → α → Prop) [DecidableRel r] (p : α → Bool)
    (h : ∀ a b, p a = true → p b = true → r a b) :
    ∀ l : List α, (l.insertionSort r).filter p = l.filter p := by
  intro l
  induction l with
  | nil => rfl
  | cons a l ih =>
    simp only [List.insertionSort, List.filter_cons]
    rw [filter_orderedInsert r p a (fun hpa b hpb => h a b hpa hpb)]
    by_cases hpa : p a = true
    · simp [hpa, ih]
    · simp [hpa, ih]

/-- Membership is preserved by the sorting stage. -/
theorem mem_sortStage {sm : SortingMethod} {l : List (String × FileInfo)}
    {t : String × FileInfo} (h : t ∈ sortStage sm l) : t ∈ l := by
  cases sm with
  | SL => exact (List.perm_insertionSort leSL l).mem_iff.mp h
  | LS => exact (List.perm_insertionSort leLS l).mem_iff.mp h
  | FL => exact h

/-- The first state of the pinning trace is the state handed in. -/
theorem pinTrace_head (fs : Fs) (m : Nat) (ts : List (String × FileInfo)) (cs : Nat)
    (loaded : Loaded) : (pinTrace fs m ts cs loaded).head? = some (cs, loaded) := by
  cases ts <;> rfl

/-- Invariant preservation along the pinning loop: if the accumulated
registry accounts exactly for `current_size`, the budget is respected,
and all sizes in sight are at most `mf`, then every state the loop
passes through satisfies the same invariants, and the registry only
ever grows (consecutive registries are prefixes). -/
theorem pinTrace_inv (fs : Fs) (m mf : Nat) (ts : List (String × FileInfo)) :
    ∀ (cs : Nat) (loaded : Loaded),
      (∀ t ∈ ts, t.2.size ≤ mf) → sumSizes loaded = cs → cs ≤ m →
      (∀ r ∈ loaded, r.2 ≤ mf) →
      (∀ s ∈ pinTrace fs m ts cs loaded,
          sumSizes s.2 = s.1 ∧ s.1 ≤ m ∧ ∀ r ∈ s.2, r.2 ≤ mf) ∧
      List.Chain' (fun a b => a.2 <+: b.2) (pinTrace fs m ts cs loaded) := by
  induction ts with
  | nil =>
    intro cs loaded _ h1 h2 h3
    refine ⟨?_, by simp [pinTrace]⟩
    intro s hs
    simp only [pinTrace, List.mem_singleton] at hs
    subst hs
    exact ⟨h1, h2, h3⟩
  | cons t ts ih =>
    intro cs loaded hts h1 h2 h3
    have htsz : t.2.size ≤ mf := hts t (List.mem_cons_self t ts)
    have htl : ∀ u ∈ ts, u.2.size ≤ mf := fun u hu => hts u (List.mem_cons_of_mem t hu)
    simp only [pinTrace]
    split_ifs with hb ho hm hl
    · -- over budget: skip
      have := ih cs loaded htl h1 h2 h3
      refine ⟨?_, ?_⟩
      · intro s hs
        rcases List.mem_cons.mp hs with hs | hs
        · subst hs; exact ⟨h1, h2, h3⟩
        · exact this.1 s hs
      · rw [List.chain'_cons']
        refine ⟨?_, this.2⟩
        intro y hy
        rw [pinTrace_head] at hy
        cases hy
        exact List.prefix_refl loaded
    · -- admitted and pinned
      have hcs' : cs + t.2.size ≤ m := Nat.le_of_not_lt hb
      have h1' : sumSizes (loaded ++ [(t.1, t.2.size)]) = cs + t.2.size := by
        simp only [sumSizes] at h1 ⊢
        simp [h1]
      have h3' : ∀ r ∈ loaded ++ [(t.1, t.2.size)], r.2 ≤ mf := by
        intro r hr
        rcases List.mem_append.mp hr with hr | hr
        · exact h3 r hr
        · simp only [List.mem_singleton] at hr
          subst hr
          exact htsz
      have := ih (cs + t.2.size) (loaded ++ [(t.1, t.2.size)]) htl h1' hcs' h3'
      refine ⟨?_, ?_⟩
      · intro s hs
        rcases List.mem_cons.mp hs with hs | hs
        · subst hs; exact ⟨h1, h2, h3⟩
        · exact this.1 s hs
      · rw [List.chain'_cons']
        refine ⟨?_, this.2⟩
        intro y hy
        rw [pinTrace_head] at hy
        cases hy
        exact List.prefix_append loaded [(t.1, t.2.size)]
    · -- pin failure: panic ends the trace here
      refine ⟨?_, ?_⟩
      · intro s hs
        rcases List.mem_cons.mp hs with hs | hs
        · subst hs; exact ⟨h1, h2, h3⟩
        · simp only [List.mem_singleton] at hs
          subst hs
          exact ⟨h1, h2, h3⟩
      · simp [List.chain'_cons']
    · -- map failure: skip
      have := ih cs loaded htl h1 h2 h3
      refine ⟨?_, ?_⟩
      · intro s hs
        rcases List.mem_cons.mp hs with hs | hs
        · subst hs; exact ⟨h1, h2, h3⟩
        · exact this.1 s hs
      · rw [List.chain'_cons']
        refine ⟨?_, this.2⟩
        intro y hy
        rw [pinTrace_head] at hy
        cases hy
        exact List.prefix_refl loaded
    · -- open failure: skip
      have := ih cs loaded htl h1 h2 h3
      refine ⟨?_, ?_⟩
      · intro s hs
        rcases List.mem_cons.mp hs with hs | hs
        · subst hs; exact ⟨h1, h2, h3⟩
        · exact this.1 s hs
      · rw [List.chain'_cons']
        refine ⟨?_, this.2⟩
        intro y hy
        rw [pinTrace_head] at hy
        cases hy
        exact List.prefix_refl loaded

/-- Every candidate the entry filter keeps is a regular file whose
metadata length is within the per-file cap. -/
theorem mem_scanEntries {mf : Nat} {entries : List (Option DirEntryE)} {f : DirEntryE}
    (h : f ∈ scanEntries mf entries) :
    ∃ fd, f.meta = some fd ∧ fd.is_file = true ∧ fd.len ≤ mf := by
  simp only [scanEntries, List.mem_filterMap] at h
  obtain ⟨it, -, hit⟩ := h
  split at hit
  · split at hit
    · split at hit
      · cases hit
        exact ⟨_, by assumption, by assumption⟩
      · exact absurd hit (by simp)
    · exact absurd hit (by simp)
  · exact absurd hit (by simp)

/-- Every candidate the scanner produces is a regular file within the
per-file cap. -/
theorem mem_scanLocations {fs : Fs} {mf : Nat} {locs : List Toml} {files : List DirEntryE}
    (h : scanLocations fs mf locs = .ok files) :
    ∀ f ∈ files, ∃ fd, f.meta = some fd ∧ fd.is_file = true ∧ fd.len ≤ mf := by
  induction locs generalizing files with
  | nil =>
    simp only [scanLocations] at h
    cases h
    intro f hf
    exact absurd hf (List.not_mem_nil f)
  | cons loc rest ih =>
    simp only [scanLocations] at h
    split at h
    · exact absurd h (by simp)
    · split at h
      · split at h
        · split at h
          · split at h
            · cases h
              intro f hf
              rcases List.mem_append.mp hf with hf | hf
              · exact mem_scanEntries hf
              · exact ih (by assumption) f hf
            · exact absurd h (by simp)
          · exact absurd h (by simp)
        · exact ih h
      · exact ih h

/-- Every load target produced for one pattern takes its size from the
metadata of one of the scanned candidates. -/
theorem mem_matchOne {rmatch : String → String → Bool} {p : String}
    {files : List DirEntryE} {t : String × FileInfo} (h : t ∈ matchOne rmatch p files) :
    ∃ f ∈ files, ∃ fd, f.meta = some fd ∧ t.2.size = fd.len := by
  simp only [matchOne, List.mem_filterMap] at h
  obtain ⟨f, hf, hft⟩ := h
  split at hft
  · split at hft
    · split at hft
      · cases hft
        exact ⟨f, hf, _, by assumption, rfl⟩
      · exact absurd hft (by simp)
    · exact absurd hft (by simp)
  · exact absurd hft (by simp)

/-- Every load target produced by the pattern loop takes its size from
the metadata of one of the scanned candidates. -/
theorem mem_matchPatterns {rmatch : String → String → Bool} {rbuild : String → Bool}
    {files : List DirEntryE} {ps : List String} {r : List (String × FileInfo)}
    (h : matchPatterns rmatch rbuild files ps = .ok r) :
    ∀ t ∈ r, ∃ f ∈ files, ∃ fd, f.meta = some fd ∧ t.2.size = fd.len := by
  induction ps generalizing r with
  | nil =>
    simp only [matchPatterns] at h
    cases h
    intro t ht
    exact absurd ht (List.not_mem_nil t)
  | cons p ps ih =>
    simp only [matchPatterns] at h
    split at h
    · split at h
      · cases h
        intro t ht
        rcases List.mem_append.mp ht with ht | ht
        · exact mem_matchOne ht
        · exact ih (by assumption) t ht
      · exact absurd h (by simp)
    · exact absurd h (by simp)

/-- Every load target the load stage produces takes its size from the
metadata of one of the scanned candidates. -/
theorem mem_loadStage {rmatch : String → String → Bool} {rbuild : String → Bool}
    {config : List (String × Toml)} {files : List DirEntryE}
    {to_load : List (String × FileInfo)}
    (h : loadStage rmatch rbuild config files = .ok to_load) :
    ∀ t ∈ to_load, ∃ f ∈ files, ∃ fd, f.meta = some fd ∧ t.2.size = fd.len := by
  simp only [loadStage] at h
  split at h
  · exact absurd h (by simp)
  · split at h
    · cases h
      intro t ht
      exact absurd ht (List.not_mem_nil t)
    · split at h
      · exact absurd h (by simp)
      · split at h
        · exact absurd h (by simp)
        · split at h
          · exact absurd h (by simp)
          · split at h
            · exact absurd h (by simp)
            · split at h
              · exact absurd h (by simp)
              · exact mem_matchPatterns h

/-- The lock stage only hands over candidates within the per-file cap of
the lock policy it returns (the sorting-method update does not change
`max_file_size`). -/
theorem mem_lockStage {fs : Fs} {config : List (String × Toml)} {lock0 lock : Lock}
    {files : List DirEntryE} (h : lockStage fs config lock0 = .ok (lock, files)) :
    ∀ f ∈ files, ∃ fd, f.meta = some fd ∧ fd.is_file = true ∧ fd.len ≤ lock.max_file_size := by
  simp only [lockStage] at h
  split at h
  · exact absurd h (by simp)
  · split at h
    · exact absurd h (by simp)
    · split at h
      · exact absurd h (by simp)
      · split at h
        · exact absurd h (by simp)
        · split at h
          · exact absurd h (by simp)
          · split at h
            · exact absurd h (by simp)
            · split at h
              · exact absurd h (by simp)
              · split at h
                · exact absurd h (by simp)
                · split at h
                  · exact absurd h (by simp)
                  · split at h
                    · exact absurd h (by simp)
                    · split at h <;>
                      · simp only [Except.ok.injEq, Prod.mk.injEq] at h
                        obtain ⟨hlock, hfiles⟩ := h
                        subst hfiles
                        intro f hf
                        have := mem_scanLocations (by assumption) f hf
                        rw [← hlock]
                        exact this

/-! ## Claims -/

/-- C1: the spec claims that for a nonzero decimal numeral `v`,
`size_to_bytes` of `v` followed by a percent sign is
`total_memory / v` — e.g. `resolve("50%") = total_memory / 50`.  The
code parses capture group 0 (the whole match, here the string
`50%`) as the number, which fails and defaults to 0, so the result is
`Some(0)`: with 1000 bytes of total memory the code yields `some 0`,
not `some 20`.  (The `%` arm at main.rs:59-61 compares the digit
capture group against a percent sign and is unreachable.) -/
theorem c1_percent_resolution_bug :
    size_to_bytes "50%" (initLock 1000) = some 0 ∧
    (1000 : Nat) / 50 = 20 ∧ (some 0 : Option Nat) ≠ some 20 := by
  refine ⟨by decide, by decide, by decide⟩

/-- C2: the spec claims `resolve("10k") = 10240`,
`resolve("5m") = 5*1024^2`, `resolve("2g") = 2*1024^3`, raw bytes with
no suffix, and `resolve("0") = 0`.  On the code, every suffixed input
yields `some 0` because capture group 0 (digits plus suffix) fails to
parse as a number (the k/m/g arms at main.rs:50-58 match the digit
group and are unreachable); only the unsuffixed and zero cases agree
with the spec. -/
theorem c2_unit_suffix_resolution_bug :
    size_to_bytes "10k" (initLock 1000) = some 0 ∧
    size_to_bytes "5m" (initLock 1000) = some 0 ∧
    size_to_bytes "2g" (initLock 1000) = some 0 ∧
    size_to_bytes "10" (initLock 1000) = some 10 ∧
    size_to_bytes "0" (initLock 1000) = some 0 ∧
    (some 0 : Option Nat) ≠ some 10240 := by
  refine ⟨by decide, by decide, by decide, by decide, by decide, by decide⟩

/-- C6 counterexample: the claim says input the size regex does not
match yields `None` (as opposed to `Some(0)`).  The string `abc` does
not match the spec's pattern `<digits><unit>?`, yet the resolver
returns `some 0`, not `none` (the regex's parts are all optional, so
it matches every string emptily). -/
theorem c6_unmatched_counterexample :
    size_to_bytes "abc" (initLock 1000) = some 0 ∧ (some 0 : Option Nat) ≠ none := by
  refine ⟨by decide, by decide⟩

/-- C6 amended: the size regex matches every input (all of its parts
are optional), so `size_to_bytes` returns `Some` on every string and
never `None`; the Policy Builder's `unwrap_or` defaults of 20 MiB and
`total_memory/10` are exactly the initial `Lock` values and are never
substituted through the `None` path. -/
theorem c6_resolver_total_amended :
    (∀ (s : String) (lock : Lock), (size_to_bytes s lock).isSome = true) ∧
    (∀ tm : Nat, (initLock tm).max_file_size = 20 * MIB ∧
      (initLock tm).max_total_size = tm / 10) := by
  constructor
  · intro s lock
    simp only [size_to_bytes, stb_captures]
    split_ifs <;> rfl
  · intro tm
    exact ⟨rfl, rfl⟩

/-- C7: whenever `daemon_setup` returns a fatal error (`Err`: a
zero-resolved size limit, an invalid required table, or an unreadable
configured directory), it does so before any file is pinned: the
resident registry is empty and `current_size` is 0 at that return. -/
theorem c7_fatal_error_before_pinning (fs : Fs) (rmatch : String → String → Bool)
    (rbuild : String → Bool) (tm : Nat) (config : List (String × Toml)) (e : Err)
    (cs : Nat) (loaded : Loaded)
    (h : daemon_setup fs rmatch rbuild tm config = .fatal e cs loaded) :
    cs = 0 ∧ loaded = [] := by
  unfold daemon_setup at h
  split at h
  · exact absurd h (by simp)
  · simp only [DSOut.fatal.injEq] at h
    exact ⟨h.2.1.symm, h.2.2.symm⟩
  · split at h
    · exact absurd h (by simp)
    · simp only [DSOut.fatal.injEq] at h
      exact ⟨h.2.1.symm, h.2.2.symm⟩
    · split at h
      · exact absurd h (by simp)
      · exact absurd h (by simp)

/-- Witness for C7: a configuration whose `max_total_size` resolves to
zero makes `daemon_setup` return the fatal error, with registry empty
and `current_size` zero. -/
theorem c7_fatal_error_before_pinning_witness :
    daemon_setup fsBase rmNever rbAll 1000 cfgMtsZero = .fatal .maxTotalZero 0 [] ∧
    ((0 : Nat) = 0 ∧ ([] : Loaded) = []) :=
  ⟨rfl, c7_fatal_error_before_pinning fsBase rmNever rbAll 1000 cfgMtsZero
    .maxTotalZero 0 [] rfl⟩

/-- C10: a present lock table missing any of `max_file_size`,
`max_total_size`, `locations` or `sorting_method`, or a load table
missing `files` or `lists`, or a `lists` entry naming a group with no
key in the load table, makes `daemon_setup` panic through the TOML
table index operation (key not found) rather than apply a default or
return a descriptive error. -/
theorem c10_missing_config_keys_panic :
    daemon_setup fsBase rmNever rbAll 1000 cfgNoMfs =
      .panicked (.keyNotFound "max_file_size") 0 [] ∧
    daemon_setup fsBase rmNever rbAll 1000 cfgNoMts =
      .panicked (.keyNotFound "max_total_size") 0 [] ∧
    daemon_setup fsBase rmNever rbAll 1000 cfgNoLocations =
      .panicked (.keyNotFound "locations") 0 [] ∧
    daemon_setup fsBase rmNever rbAll 1000 cfgNoSortingMethod =
      .panicked (.keyNotFound "sorting_method") 0 [] ∧
    daemon_setup fsBase rmNever rbAll 1000 cfgNoFiles =
      .panicked (.keyNotFound "files") 0 [] ∧
    daemon_setup fsBase rmNever rbAll 1000 cfgNoLists =
      .panicked (.keyNotFound "lists") 0 [] ∧
    daemon_setup fsBase rmNever rbAll 1000 cfgNoGroup =
      .panicked (.keyNotFound "grp") 0 [] :=
  ⟨rfl, rfl, rfl, rfl, rfl, rfl, rfl⟩

/-- C3 counterexample: the claim says a pin (mlock) failure on one file
does not terminate setup.  On a single in-budget target whose
`mmap.lock()` fails, the pinning pass panics (the `expect` at
main.rs:215) instead of skipping the file and continuing. -/
theorem c3_pin_failure_counterexample :
    pinPass fsLockFail 100 [("a", ⟨10⟩)] 0 [] = .error (.mlockFailed, 0, []) := rfl

/-- C3 amended: open and memory-map failures on an individual file are
non-fatal — the file is skipped and the pass continues — but a pin
(mlock) failure panics via `expect`, terminating setup with the
registry state at that moment. -/
theorem c3_partial_failure_amended (fs : Fs) (m : Nat) (t : String × FileInfo)
    (ts : List (String × FileInfo)) (cs : Nat) (loaded : Loaded)
    (hb : cs + t.2.size ≤ m) :
    (fs.open_ok t.1 = false → pinPass fs m (t :: ts) cs loaded = pinPass fs m ts cs loaded) ∧
    (fs.open_ok t.1 = true → fs.map_ok t.1 = false →
      pinPass fs m (t :: ts) cs loaded = pinPass fs m ts cs loaded) ∧
    (fs.open_ok t.1 = true → fs.map_ok t.1 = true → fs.lock_ok t.1 = false →
      pinPass fs m (t :: ts) cs loaded = .error (.mlockFailed, cs, loaded)) := by
  have hb' : ¬ cs + t.2.size > m := Nat.not_lt.mpr hb
  refine ⟨?_, ?_, ?_⟩
  · intro ho
    simp [pinPass, hb', ho]
  · intro ho hm
    simp [pinPass, hb', ho, hm]
  · intro ho hm hl
    simp [pinPass, hb', ho, hm, hl]

/-- Witness for the amended C3: a map failure is skipped; a pin failure
panics. -/
theorem c3_partial_failure_amended_witness :
    pinPass fsMapFail 100 [("a", ⟨10⟩)] 0 [] = pinPass fsMapFail 100 [] 0 [] ∧
    pinPass fsLockFail 100 [("b", ⟨10⟩)] 0 [] = .error (.mlockFailed, 0, []) :=
  ⟨(c3_partial_failure_amended fsMapFail 100 ("a", ⟨10⟩) [] 0 [] (by decide)).2.1 rfl rfl,
   (c3_partial_failure_amended fsLockFail 100 ("b", ⟨10⟩) [] 0 [] (by decide)).2.2
     rfl rfl rfl⟩

/-- C4: the budget pass is a single forward pass starting from
`current_size = 0`: a target that would push the running total over
`max_total_size` is skipped and the pass continues (best-effort
packing); otherwise it is admitted and its size added.  With budget 25
and ordered sizes [10, 20, 5] (all operations succeeding), the admitted
entries are the 10 and the 5, and the final total is 15. -/
theorem c4_budget_skip_and_continue (fs : Fs) (m : Nat) (t : String × FileInfo)
    (ts : List (String × FileInfo)) (cs : Nat) (loaded : Loaded) :
    (cs + t.2.size > m → pinPass fs m (t :: ts) cs loaded = pinPass fs m ts cs loaded) ∧
    (cs + t.2.size ≤ m → fs.open_ok t.1 = true → fs.map_ok t.1 = true →
      fs.lock_ok t.1 = true →
      pinPass fs m (t :: ts) cs loaded =
        pinPass fs m ts (cs + t.2.size) (loaded ++ [(t.1, t.2.size)])) ∧
    pinPass fsBase 25 [("a", ⟨10⟩), ("b", ⟨20⟩), ("c", ⟨5⟩)] 0 [] =
      .ok (15, [("a", 10), ("c", 5)]) := by
  refine ⟨?_, ?_, rfl⟩
  · intro hover
    simp [pinPass, hover]
  · intro hfits ho hm hl
    simp [pinPass, Nat.not_lt.mpr hfits, ho, hm, hl]

/-- Witness for C4: an oversized target is skipped; a fitting target is
admitted with its size added and its entry appended. -/
theorem c4_budget_skip_and_continue_witness :
    pinPass fsBase 25 [("b", ⟨30⟩)] 0 [] = pinPass fsBase 25 [] 0 [] ∧
    pinPass fsBase 25 [("a", ⟨10⟩)] 0 [] = pinPass fsBase 25 [] 10 [("a", 10)] :=
  ⟨(c4_budget_skip_and_continue fsBase 25 ("b", ⟨30⟩) [] 0 []).1 (by decide),
   (c4_budget_skip_and_continue fsBase 25 ("a", ⟨10⟩) [] 0 []).2.1 (by decide) rfl rfl rfl⟩

/-- C5: along the whole pinning pass of any run whose setup stages
succeeded, every state satisfies: the sum of the registry's mapped
sizes equals `current_size`, `current_size ≤ max_total_size`, and every
resident size is at most `max_file_size`; moreover the registry only
grows (each state's registry is a prefix of the next — it is
append-only). -/
theorem c5_resident_registry_invariants (fs : Fs) (rmatch : String → String → Bool)
    (rbuild : String → Bool) (tm : Nat) (config : List (String × Toml)) (lock : Lock)
    (files : List DirEntryE) (to_load : List (String × FileInfo))
    (h1 : lockStage fs config (initLock tm) = .ok (lock, files))
    (h2 : loadStage rmatch rbuild config files = .ok to_load) :
    (∀ s ∈ pinTrace fs lock.max_total_size (sortStage lock.sorting_method to_load) 0 [],
        sumSizes s.2 = s.1 ∧ s.1 ≤ lock.max_total_size ∧
        ∀ r ∈ s.2, r.2 ≤ lock.max_file_size) ∧
    List.Chain' (fun a b => a.2 <+: b.2)
      (pinTrace fs lock.max_total_size (sortStage lock.sorting_method to_load) 0 []) := by
  have hsz : ∀ t ∈ sortStage lock.sorting_method to_load, t.2.size ≤ lock.max_file_size := by
    intro t ht
    obtain ⟨f, hf, fd, hmeta, hlen⟩ := mem_loadStage h2 t (mem_sortStage ht)
    obtain ⟨fd', hmeta', -, hle⟩ := mem_lockStage h1 f hf
    rw [hmeta] at hmeta'
    cases hmeta'
    rw [hlen]
    exact hle
  exact pinTrace_inv fs lock.max_total_size lock.max_file_size _ 0 [] hsz rfl
    (Nat.zero_le _) (fun r hr => absurd hr (List.not_mem_nil r))

/-- Witness for C5: the registry chain of the concrete double-match run
(one 10-byte file admitted twice under a 100-byte budget). -/
theorem c5_resident_registry_invariants_witness :
    List.Chain' (fun a b => a.2 <+: b.2)
      (pinTrace fsC8 lockC8.max_total_size (sortStage lockC8.sorting_method targetsC8)
        0 []) :=
  (c5_resident_registry_invariants fsC8 rmC8 rbAll 1000 cfgC8 lockC8 [entX] targetsC8
    rfl rfl).2

/-- The pattern loop with all regexes building is the concatenation,
over patterns in order, of the whole-candidate-set scan for that
pattern. -/
theorem matchPatterns_eq_flatMap (rmatch : String → String → Bool) (rbuild : String → Bool)
    (files : List DirEntryE) :
    ∀ patterns : List String, (∀ p ∈ patterns, rbuild p = true) →
      matchPatterns rmatch rbuild files patterns =
        .ok (patterns.flatMap fun p => matchOne rmatch p files)
  | [], _ => rfl
  | p :: ps, hb => by
    have hp : rbuild p = true := hb p (List.mem_cons_self p ps)
    have hps : ∀ q ∈ ps, rbuild q = true := fun q hq => hb q (List.mem_cons_of_mem p hq)
    simp only [matchPatterns, hp, if_true,
      matchPatterns_eq_flatMap rmatch rbuild files ps hps, List.flatMap_cons]

/-- C8: the Pattern Matcher iterates patterns in the outer loop and the
whole candidate set in the inner loop, appending every match, so the
target list is the pattern-ordered concatenation of per-pattern scans
and a file matching k patterns appears k times.  In the concrete run a
single 10-byte file matching both configured patterns is admitted
twice, with `current_size = 20` (counted once per admission). -/
theorem c8_pattern_matcher_product (rmatch : String → String → Bool)
    (rbuild : String → Bool) (files : List DirEntryE) (patterns : List String)
    (hb : ∀ p ∈ patterns, rbuild p = true) :
    matchPatterns rmatch rbuild files patterns =
      .ok (patterns.flatMap fun p => matchOne rmatch p files) ∧
    daemon_setup fsC8 rmC8 rbAll 1000 cfgC8 = .ok 20 [("d/x", 10), ("d/x", 10)] :=
  ⟨matchPatterns_eq_flatMap rmatch rbuild files patterns hb, rfl⟩

/-- Witness for C8: the two configured patterns both match the single
candidate, producing one target per pattern. -/
theorem c8_pattern_matcher_product_witness :
    matchPatterns rmC8 rbAll [entX] ["a", "b"] =
      .ok ((["a", "b"]).flatMap fun p => matchOne rmC8 p [entX]) :=
  (c8_pattern_matcher_product rmC8 rbAll [entX] ["a", "b"] (by decide)).1

/-- C9: the Selection Sorter is a pure reordering, stable for equal
sizes: FirstToLast leaves every list unchanged, SmallestToLargest
produces an ascending-by-size permutation, LargestToSmallest a
descending-by-size permutation, and in each case the subsequence of any
fixed size is preserved (stability); sizes [30, 10, 20] become
[10, 20, 30], [30, 20, 10] and [30, 10, 20] respectively. -/
theorem c9_selection_sorter (l : List (String × FileInfo)) (k : Nat) :
    sortStage .FL l = l ∧
    List.Sorted leSL (sortStage .SL l) ∧ (sortStage .SL l).Perm l ∧
    List.Sorted leLS (sortStage .LS l) ∧ (sortStage .LS l).Perm l ∧
    (sortStage .SL l).filter (fun t => t.2.size = k) =
      l.filter (fun t => t.2.size = k) ∧
    (sortStage .LS l).filter (fun t => t.2.size = k) =
      l.filter (fun t => t.2.size = k) ∧
    sortStage .SL [("a", (⟨30⟩ : FileInfo)), ("b", ⟨10⟩), ("c", ⟨20⟩)] =
      [("b", ⟨10⟩), ("c", ⟨20⟩), ("a", ⟨30⟩)] ∧
    sortStage .LS [("a", (⟨30⟩ : FileInfo)), ("b", ⟨10⟩), ("c", ⟨20⟩)] =
      [("a", ⟨30⟩), ("c", ⟨20⟩), ("b", ⟨10⟩)] ∧
    sortStage .FL [("a", (⟨30⟩ : FileInfo)), ("b", ⟨10⟩), ("c", ⟨20⟩)] =
      [("a", ⟨30⟩), ("b", ⟨10⟩), ("c", ⟨20⟩)] := by
  refine ⟨rfl, List.sorted_insertionSort leSL l, List.perm_insertionSort leSL l,
    List.sorted_insertionSort leLS l, List.perm_insertionSort leLS l, ?_, ?_,
    by decide, by decide, rfl⟩
  · exact filter_insertionSort leSL (fun t => decide (t.2.size = k))
      (fun a b ha hb => by
        simp only [decide_eq_true_eq] at ha hb
        exact le_of_eq (ha.trans hb.symm)) l
  · exact filter_insertionSort leLS (fun t => decide (t.2.size = k))
      (fun a b ha hb => by
        simp only [decide_eq_true_eq] at ha hb
        exact le_of_eq (hb.trans ha.symm)) l

end Prelockd
